import Mathlib

/-!
Verification of the Chrome network capture daemon (`scripts/daemon.py`).

The daemon's pure logic is shallowly embedded below: Python strings become
`String` (compared through their character lists), Python dicts keyed by
strings become functions `String → Option _`, the in-flight request table
(`RequestStore`) becomes `Store`, the log directory becomes an explicit
file-system record `FS`, and each CDP event handler becomes a pure state
transformer.  Asynchronous inputs (the reply to a `Network.getResponseBody`
command) are supplied as oracle parameters of the corresponding event.
-/

namespace ChromeLog

/-- Boolean test that the first list is a prefix of the second
(Python `str.startswith` on the character level). -/
def startsWithList : List Char → List Char → Bool
  | [], _ => true
  | _ :: _, [] => false
  | a :: as, b :: bs => (a == b) && startsWithList as bs

/-- Boolean substring containment: does `pat` occur inside `s`
(Python `pat in s` on the character level)? -/
def containsList (s pat : List Char) : Bool :=
  match s with
  | [] => pat.isEmpty
  | _ :: rest => startsWithList pat s || containsList rest pat

/-- Python `pat in s` for strings. -/
def strContains (s pat : String) : Bool :=
  containsList s.data pat.data

/-- Python `s.startswith(pat)` for strings. -/
def strStartsWith (s pat : String) : Bool :=
  startsWithList pat.data s.data

/-- `MAX_BODY_SIZE = 100 * 1024` (daemon.py line 36). -/
def MAX_BODY_SIZE : Nat := 100 * 1024

/-- `MAX_LOG_SIZE = 50 * 1024 * 1024` (daemon.py line 37). -/
def MAX_LOG_SIZE : Nat := 50 * 1024 * 1024

/-- `MAX_ROTATED_FILES = 3` (daemon.py line 38). -/
def MAX_ROTATED_FILES : Nat := 3

/-- `SKIP_URL_PATTERNS` (daemon.py lines 41-49). -/
def SKIP_URL_PATTERNS : List String :=
  [ "google-analytics.com"
  , "doubleclick.net"
  , "googlesyndication.com"
  , "googleadservices.com"
  , "play.google.com/log"
  , "fonts.googleapis.com"
  , "fonts.gstatic.com" ]

/-- `SKIP_MIME_TYPES` (daemon.py lines 52-60). -/
def SKIP_MIME_TYPES : List String :=
  [ "image/"
  , "font/"
  , "audio/"
  , "video/"
  , "application/octet-stream"
  , "application/pdf"
  , "application/zip" ]

/-- `ChromeLogDaemon.should_skip_url` (daemon.py lines 106-108):
`any(pattern in url for pattern in SKIP_URL_PATTERNS)`. -/
def should_skip_url (url : String) : Bool :=
  SKIP_URL_PATTERNS.any (fun pattern => strContains url pattern)

/-- `ChromeLogDaemon.should_skip_mime` (daemon.py lines 110-114):
`None`/empty is not skipped, otherwise
`any(mime.startswith(pattern) for pattern in SKIP_MIME_TYPES)`. -/
def should_skip_mime : Option String → Bool
  | none => false
  | some mime =>
      if mime = "" then false
      else SKIP_MIME_TYPES.any (fun pattern => strStartsWith mime pattern)

/-- The `'tab'` snapshot stored in a request entry (daemon.py lines 227-230). -/
structure Tab where
  id : String
  url : String
deriving DecidableEq, Repr

/-- A target-info value kept in `self.sessions` (daemon.py line 96). -/
structure TargetInfo where
  targetId : String
  url : String
deriving DecidableEq, Repr

/-- One in-flight request dict as assembled by the event handlers
(daemon.py lines 225-235, 248-252, 263-270, 286).  Fields that are only
added by later events are `Option`s, `none` meaning the key is absent. -/
structure Entry where
  id : String
  ts : Nat
  sessionId : Option String
  tab : Tab
  method : Option String
  url : String
  requestHeaders : List (String × String)
  requestBody : Option String
  status : Option Nat
  mime : Option String
  responseHeaders : Option (List (String × String))
  size : Option Nat
  responseBody : Option String
  error : Option String
deriving DecidableEq, Repr

/-- `RequestStore.requests`: a dict from request id to entry
(daemon.py line 67), embedded as a finite-map function. -/
def Store : Type := String → Option Entry

/-- `RequestStore.start_request` (daemon.py lines 69-74):
`self.requests[request_id] = {...}`. -/
def start_request (s : Store) (request_id : String) (e : Entry) : Store :=
  fun k => if k = request_id then some e else s k

/-- `RequestStore.update_request` (daemon.py lines 76-78):
merge fields into the entry if it is present, else do nothing.
The call-site merge is passed as `f`. -/
def update_request (s : Store) (request_id : String) (f : Entry → Entry) : Store :=
  fun k => if k = request_id then (s k).map f else s k

/-- `RequestStore.complete_request` (daemon.py lines 80-81):
`self.requests.pop(request_id, None)`, returning the popped entry
and the shrunken table. -/
def complete_request (s : Store) (request_id : String) : Option Entry × Store :=
  (s request_id, fun k => if k = request_id then none else s k)

/-- `RequestStore.get_request` (daemon.py lines 83-84). -/
def get_request (s : Store) (request_id : String) : Option Entry :=
  s request_id

/-- Contents and reported size of one file in the log directory. -/
structure FileD where
  sz : Nat
  lines : List Entry
deriving DecidableEq, Repr

/-- The log directory: the active `requests.jsonl`, the rotated
`requests.jsonl.i` generations, and the `.paused` marker file
(present iff `paused = true`). -/
structure FS where
  active : Option FileD
  rot : Nat → Option FileD
  paused : Bool

/-- `ChromeLogDaemon.is_paused` (daemon.py lines 102-104):
`self.pause_file.exists()`, read afresh at every call. -/
def is_paused (fs : FS) : Bool := fs.paused

/-- `oldest.unlink()` for `requests.jsonl.{i}` (daemon.py lines 199-201). -/
def eraseRot (fs : FS) (i : Nat) : FS :=
  { fs with rot := fun k => if k = i then none else fs.rot k }

/-- One iteration of the shift loop (daemon.py lines 204-208):
`if src.exists(): src.rename(dst)` for `src = requests.jsonl.{i}`,
`dst = requests.jsonl.{i+1}`. -/
def shiftGen (fs : FS) (i : Nat) : FS :=
  match fs.rot i with
  | some fd =>
      { fs with rot := fun k => if k = i + 1 then some fd
                                else if k = i then none else fs.rot k }
  | none => fs

/-- `range(MAX_ROTATED_FILES - 1, 0, -1)` = `[2, 1]` (daemon.py line 204). -/
def shiftIndices : List Nat :=
  ((List.range (MAX_ROTATED_FILES - 1)).map (fun i => i + 1)).reverse

/-- `ChromeLogDaemon.rotate_logs` (daemon.py lines 194-212): delete the
oldest generation if present, shift remaining generations up by one,
rename the active file to generation 1. -/
def rotate_logs (fs : FS) : FS :=
  let fs1 := if (fs.rot MAX_ROTATED_FILES).isSome then eraseRot fs MAX_ROTATED_FILES else fs
  let fs2 := shiftIndices.foldl shiftGen fs1
  match fs2.active with
  | some fd =>
      { fs2 with active := none
               , rot := fun k => if k = 1 then some fd else fs2.rot k }
  | none => fs2

/-- `self.log_file.exists() and self.log_file.stat().st_size > MAX_LOG_SIZE`
(daemon.py line 188). -/
def log_file_oversize (fs : FS) : Bool :=
  match fs.active with
  | some fd => decide (MAX_LOG_SIZE < fd.sz)
  | none => false

/-- `ChromeLogDaemon.write_request` (daemon.py lines 182-192), parameterised
by the serialized byte length `esz` of one JSON line (`json.dumps(...) + '\n'`).
Returns the updated directory and the list of lines physically appended by
this call (empty when paused). -/
def write_request (esz : Entry → Nat) (fs : FS) (r : Entry) : FS × List Entry :=
  if is_paused fs then (fs, [])
  else
    let fs1 := if log_file_oversize fs then rotate_logs fs else fs
    let newActive :=
      match fs1.active with
      | some fd => FileD.mk (fd.sz + esz r) (fd.lines ++ [r])
      | none => FileD.mk (esz r) [r]
    ({ fs1 with active := some newActive }, [r])

/-- The daemon's mutable state relevant to the request pipeline:
the request store, the session registry, the log directory and the
clock used for the `ts` field. -/
structure DaemonState where
  store : Store
  sessions : String → Option TargetInfo
  fs : FS
  clock : Nat

/-- `ChromeLogDaemon.handle_request_will_be_sent` (daemon.py lines 214-235). -/
def handle_request_will_be_sent (st : DaemonState) (session_id : String)
    (request_id url method : String) (headers : List (String × String))
    (postData : Option String) : DaemonState :=
  if should_skip_url url then st
  else
    let target_info := (st.sessions session_id).getD ⟨"", ""⟩
    let e : Entry :=
      { id := request_id
      , ts := st.clock
      , sessionId := some session_id
      , tab := ⟨target_info.targetId, target_info.url⟩
      , method := some method
      , url := url
      , requestHeaders := headers
      , requestBody := postData
      , status := none
      , mime := none
      , responseHeaders := none
      , size := none
      , responseBody := none
      , error := none }
    { st with store := start_request st.store request_id e }

/-- `ChromeLogDaemon.handle_response_received` (daemon.py lines 237-252). -/
def handle_response_received (st : DaemonState) (request_id : String)
    (status : Nat) (mimeType : String)
    (headers : List (String × String)) : DaemonState :=
  if should_skip_mime (some mimeType) then
    { st with store := (complete_request st.store request_id).2 }
  else
    let merge := fun (e : Entry) =>
      { e with status := some status
             , mime := some mimeType
             , responseHeaders := some headers }
    { st with store := update_request st.store request_id merge }

/-- `ChromeLogDaemon.handle_loading_finished` (daemon.py lines 254-277).
`bodyOracle` is the value `get_response_body` would return if called
(`none` models both a failed fetch and Python `None`).  The second
component is the list of lines appended to the log, the third records
whether a body fetch was attempted. -/
def handle_loading_finished (esz : Entry → Nat) (st : DaemonState)
    (request_id : String) (encodedDataLength : Nat)
    (bodyOracle : Option String) : DaemonState × List Entry × Bool :=
  match get_request st.store request_id with
  | none => (st, [], false)
  | some request =>
      let request1 := { request with size := some encodedDataLength }
      let mime := request1.mime.getD ""
      if should_skip_mime (some mime) then
        let completed := { request1 with sessionId := none }
        let (fs', written) := write_request esz st.fs completed
        ({ st with store := (complete_request st.store request_id).2, fs := fs' },
         written, false)
      else
        let request2 :=
          match bodyOracle with
          | some body => if body = "" then request1
                         else { request1 with responseBody := some body }
          | none => request1
        let completed := { request2 with sessionId := none }
        let (fs', written) := write_request esz st.fs completed
        ({ st with store := (complete_request st.store request_id).2, fs := fs' },
         written, true)

/-- `ChromeLogDaemon.handle_loading_failed` (daemon.py lines 279-290). -/
def handle_loading_failed (esz : Entry → Nat) (st : DaemonState)
    (request_id : String) (errorText : String) : DaemonState × List Entry :=
  match get_request st.store request_id with
  | none => (st, [])
  | some request =>
      let request1 := { request with error := some errorText }
      let completed := { request1 with sessionId := none }
      let (fs', written) := write_request esz st.fs completed
      ({ st with store := (complete_request st.store request_id).2, fs := fs' },
       written)

/-- The four `Network.*` events consumed by the ledger
(daemon.py lines 344-351), with the parameters each handler reads. -/
inductive NetworkEvent
  | requestWillBeSent (requestId url method : String)
      (headers : List (String × String)) (postData : Option String)
  | responseReceived (requestId : String) (status : Nat) (mimeType : String)
      (headers : List (String × String))
  | loadingFinished (requestId : String) (encodedDataLength : Nat)
  | loadingFailed (requestId : String) (errorText : String)
deriving DecidableEq, Repr

/-- The `requestId` field carried by every network event. -/
def NetworkEvent.requestId : NetworkEvent → String
  | .requestWillBeSent rid _ _ _ _ => rid
  | .responseReceived rid _ _ _ => rid
  | .loadingFinished rid _ => rid
  | .loadingFailed rid _ => rid

/-- One inbound event frame: the session it came from, the event, and the
environment's answer to a body fetch should one be issued while handling it. -/
structure Frame where
  sessionId : String
  event : NetworkEvent
  bodyOracle : Option String
deriving DecidableEq, Repr

/-- Does this frame carry a `Network.requestWillBeSent` event? -/
def Frame.isStarted (f : Frame) : Bool :=
  match f.event with
  | .requestWillBeSent _ _ _ _ _ => true
  | _ => false

/-- Does this frame carry a finalize (`loadingFinished`/`loadingFailed`) event? -/
def Frame.isFinalize (f : Frame) : Bool :=
  match f.event with
  | .loadingFinished _ _ => true
  | .loadingFailed _ _ => true
  | _ => false

/-- Result of processing a batch of frames: the final daemon state, the
records appended to the log (in order), and how many body fetches
(`Network.getResponseBody` commands) were issued. -/
structure StepOut where
  st : DaemonState
  persisted : List Entry
  fetched : Nat

/-- Event dispatch of `ChromeLogDaemon.handle_message` for network events
(daemon.py lines 344-351). -/
def step (esz : Entry → Nat) (st : DaemonState) (f : Frame) : StepOut :=
  match f.event with
  | .requestWillBeSent rid url method headers postData =>
      ⟨handle_request_will_be_sent st f.sessionId rid url method headers postData, [], 0⟩
  | .responseReceived rid status mimeType headers =>
      ⟨handle_response_received st rid status mimeType headers, [], 0⟩
  | .loadingFinished rid len =>
      let out := handle_loading_finished esz st rid len f.bodyOracle
      ⟨out.1, out.2.1, if out.2.2 then 1 else 0⟩
  | .loadingFailed rid err =>
      let out := handle_loading_failed esz st rid err
      ⟨out.1, out.2, 0⟩

/-- Process a list of inbound frames in order (the daemon's message loop,
daemon.py lines 410-418, restricted to network events). -/
def run (esz : Entry → Nat) : DaemonState → List Frame → StepOut
  | st, [] => ⟨st, [], 0⟩
  | st, f :: rest =>
      let o := step esz st f
      let o' := run esz o.st rest
      ⟨o'.st, o.persisted ++ o'.persisted, o.fetched + o'.fetched⟩

/-- The daemon's state right after startup: empty request store, no
sessions, empty log directory, no pause marker. -/
def initState : DaemonState :=
  { store := fun _ => none
  , sessions := fun _ => none
  , fs := { active := none, rot := fun _ => none, paused := false }
  , clock := 0 }

/-- A CDP reply frame carrying an `id` field (daemon.py lines 331-337);
the rest of the message is abstracted as `payload`. -/
structure Reply where
  id : Nat
  payload : String
deriving DecidableEq, Repr

/-- The correlator state: `self.msg_id` and `self.pending_commands`
(daemon.py lines 98-99).  `pending i` holds iff id `i` is a key of the
pending table; `resolved i` is the value `set_result` gave that id's
future, if any. -/
structure CorrState where
  msg_id : Nat
  pending : Nat → Bool
  resolved : Nat → Option Reply

/-- The registration half of `ChromeLogDaemon.send_command`
(daemon.py lines 118-132): bump `msg_id`, register a fresh waiter under
the new id, transmit.  Returns the new state and the assigned id. -/
def send_command (c : CorrState) : CorrState × Nat :=
  let i := c.msg_id + 1
  ({ msg_id := i
   , pending := fun k => if k = i then true else c.pending k
   , resolved := c.resolved }, i)

/-- The reply branch of `ChromeLogDaemon.handle_message`
(daemon.py lines 331-337): if the id is pending, pop the waiter and
resolve its future with the message; otherwise ignore the frame. -/
def handle_reply (c : CorrState) (r : Reply) : CorrState :=
  if c.pending r.id then
    { c with pending := fun k => if k = r.id then false else c.pending k
           , resolved := fun k => if k = r.id then some r else c.resolved k }
  else c

/-- What the `await asyncio.wait_for(future, timeout=10.0)` caller observes. -/
inductive CmdOutcome
  | ok (r : Reply)
  | timedOut
deriving DecidableEq, Repr

/-- The waiting half of `ChromeLogDaemon.send_command`
(daemon.py lines 134-139): if the future for id `i` was resolved within
the 10-second window the result is returned; otherwise the waiter is
popped from the pending table and a distinct `TimeoutError` is raised.
Real time is abstracted: `c.resolved i = none` models "no matching-id
reply arrived within 10 seconds". -/
def wait_for_reply (c : CorrState) (i : Nat) : CmdOutcome × CorrState :=
  match c.resolved i with
  | some r => (.ok r, c)
  | none => (.timedOut,
      { c with pending := fun k => if k = i then false else c.pending k })

/-- Ids above `msg_id` have never been handed out: no waiter and no
resolution can exist for them. -/
def CorrWF (c : CorrState) : Prop :=
  ∀ i, c.msg_id < i → c.pending i = false ∧ c.resolved i = none

/-- U+FFFD, the Unicode replacement character. -/
def replacementChar : Char := Char.ofNat 0xFFFD

/-- Decode one UTF-8 sequence starting at lead byte `b` with following
bytes `rest`: returns the decoded (or replacement) character and how many
bytes of `rest` belong to the sequence.  Invalid continuation bytes are
not consumed (maximal-subpart replacement, as CPython's `errors='replace'`). -/
def utf8Step (b : Nat) (rest : List Nat) : Char × Nat :=
  let cont := fun (lo hi c : Nat) => lo ≤ c && c ≤ hi
  if b < 0x80 then (Char.ofNat b, 0)
  else if 0xC2 ≤ b && b ≤ 0xDF then
    match rest with
    | c1 :: _ =>
        if cont 0x80 0xBF c1 then (Char.ofNat ((b - 0xC0) * 0x40 + (c1 - 0x80)), 1)
        else (replacementChar, 0)
    | [] => (replacementChar, 0)
  else if 0xE0 ≤ b && b ≤ 0xEF then
    let lo1 := if b = 0xE0 then 0xA0 else 0x80
    let hi1 := if b = 0xED then 0x9F else 0xBF
    match rest with
    | c1 :: rest1 =>
        if cont lo1 hi1 c1 then
          match rest1 with
          | c2 :: _ =>
              if cont 0x80 0xBF c2 then
                (Char.ofNat ((b - 0xE0) * 0x1000 + (c1 - 0x80) * 0x40 + (c2 - 0x80)), 2)
              else (replacementChar, 1)
          | [] => (replacementChar, 1)
        else (replacementChar, 0)
    | [] => (replacementChar, 0)
  else if 0xF0 ≤ b && b ≤ 0xF4 then
    let lo1 := if b = 0xF0 then 0x90 else 0x80
    let hi1 := if b = 0xF4 then 0x8F else 0xBF
    match rest with
    | c1 :: rest1 =>
        if cont lo1 hi1 c1 then
          match rest1 with
          | c2 :: rest2 =>
              if cont 0x80 0xBF c2 then
                match rest2 with
                | c3 :: _ =>
                    if cont 0x80 0xBF c3 then
                      (Char.ofNat ((b - 0xF0) * 0x40000 + (c1 - 0x80) * 0x1000
                        + (c2 - 0x80) * 0x40 + (c3 - 0x80)), 3)
                    else (replacementChar, 2)
                | [] => (replacementChar, 2)
              else (replacementChar, 1)
          | [] => (replacementChar, 1)
        else (replacementChar, 0)
    | [] => (replacementChar, 0)
  else (replacementChar, 0)

/-- Fuel-driven UTF-8 decoding loop; each step consumes at least the
lead byte, so `fuel = length` suffices. -/
def utf8DecodeAux : Nat → List Nat → List Char
  | 0, _ => []
  | _, [] => []
  | Nat.succ fuel, b :: rest =>
      let s := utf8Step b rest
      s.1 :: utf8DecodeAux fuel (rest.drop s.2)

/-- Python `bytes.decode('utf-8', errors='replace')`: total, never raises;
invalid sequences become U+FFFD. -/
def utf8DecodeReplace (bs : List Nat) : String :=
  String.mk (utf8DecodeAux bs.length bs)

/-- The base64 branch of `ChromeLogDaemon.get_response_body`
(daemon.py lines 163-172).  `base64.b64decode(body)` is modelled by its
outcome: `some decoded` for a successful decode into the byte list
`decoded`, `none` for a raising decode (caught by the `except`). -/
def get_response_body_b64 (decodeResult : Option (List Nat)) : String :=
  match decodeResult with
  | none => "[binary content]"
  | some decoded =>
      if MAX_BODY_SIZE < decoded.length then
        "[truncated: " ++ toString decoded.length ++ " bytes]"
      else utf8DecodeReplace decoded

/-- The plain-text branch of `ChromeLogDaemon.get_response_body`
(daemon.py lines 173-176). -/
def get_response_body_plain (body : String) : String :=
  if MAX_BODY_SIZE < body.length then
    String.mk (body.data.take MAX_BODY_SIZE)
      ++ "\n[truncated: " ++ toString body.length ++ " bytes total]"
  else body

/-- All frames in the batch carry request id `r`. -/
def framesFor (r : String) (evs : List Frame) : Prop :=
  ∀ f ∈ evs, f.event.requestId = r

/-- Spec-side characterization (from the spec's state machine, §4.3): once a
ledger entry exists, scanning forward, a record is emitted iff a finalize
event is reached before any response-received carrying an excluded MIME. -/
def finalizesB : List Frame → Bool
  | [] => false
  | f :: rest =>
      match f.event with
      | .responseReceived _ _ mimeType _ =>
          if should_skip_mime (some mimeType) then false else finalizesB rest
      | .loadingFinished _ _ => true
      | .loadingFailed _ _ => true
      | .requestWillBeSent _ _ _ _ _ => finalizesB rest

/-- Spec-side characterization of "a record is emitted": the batch contains a
request-started whose URL passes the noise filter, followed by a finalize
event with no earlier intervening excluded-MIME response. -/
def emitsRecordSpec : List Frame → Bool
  | [] => false
  | f :: rest =>
      match f.event with
      | .requestWillBeSent _ url _ _ _ =>
          if should_skip_url url then false else finalizesB rest
      | _ => emitsRecordSpec rest

/-- A fixed serialized-line-length function used to instantiate `esz` in
concrete scenarios. -/
def esz1 : Entry → Nat := fun _ => 1

/-- Two started/finished cycles sharing one request id. -/
def c1cexFrames : List Frame :=
  [ ⟨"s", .requestWillBeSent "r1" "http://a.test/" "GET" [] none, none⟩
  , ⟨"s", .loadingFinished "r1" 10, none⟩
  , ⟨"s", .requestWillBeSent "r1" "http://a.test/" "GET" [] none, none⟩
  , ⟨"s", .loadingFinished "r1" 10, none⟩ ]

/-- A lone request-started frame that passes both filters. -/
def c1soloFrame : List Frame :=
  [ ⟨"s", .requestWillBeSent "r1" "http://a.test/" "GET" [] none, none⟩ ]

/-- One well-formed started/finished cycle. -/
def c1wFrames : List Frame :=
  [ ⟨"s", .requestWillBeSent "r1" "http://a.test/" "GET" [] none, none⟩
  , ⟨"s", .loadingFinished "r1" 10, none⟩ ]

/-- A request whose URL contains the pattern in upper case, then finishing. -/
def c2cexFrames : List Frame :=
  [ ⟨"s", .requestWillBeSent "r1" "https://GOOGLE-ANALYTICS.COM/collect" "GET" [] none, none⟩
  , ⟨"s", .loadingFinished "r1" 10, none⟩ ]

/-- An ordinary request on a non-tracking URL, then finishing. -/
def c2wFrames : List Frame :=
  [ ⟨"s", .requestWillBeSent "r1" "http://example.test/a" "GET" [] none, none⟩
  , ⟨"s", .loadingFinished "r1" 10, none⟩ ]

/-- The record `c2wFrames` persists. -/
def c2wEntry : Entry :=
  { id := "r1", ts := 0, sessionId := none, tab := ⟨"", ""⟩
  , method := some "GET", url := "http://example.test/a"
  , requestHeaders := [], requestBody := none, status := none, mime := none
  , responseHeaders := none, size := some 10, responseBody := none, error := none }

/-- A concrete record to write in rotation scenarios. -/
def c3entry : Entry :=
  { id := "r3", ts := 0, sessionId := none, tab := ⟨"", ""⟩
  , method := some "GET", url := "http://a.test/", requestHeaders := []
  , requestBody := none, status := none, mime := none, responseHeaders := none
  , size := none, responseBody := none, error := none }

/-- A log directory whose active file is at exactly the 50 MB threshold. -/
def c3fs : FS :=
  { active := some ⟨MAX_LOG_SIZE, []⟩, rot := fun _ => none, paused := false }

/-- A log directory with an over-threshold active file and all three
rotated generations present. -/
def c3wfs : FS :=
  { active := some ⟨MAX_LOG_SIZE + 1, []⟩
  , rot := fun k => if k = 1 then some ⟨5, []⟩
           else if k = 2 then some ⟨6, []⟩
           else if k = 3 then some ⟨7, []⟩ else none
  , paused := false }

/-- A PNG response in the canonical event order, with a body available
should anyone ask for it. -/
def c4cexFrames : List Frame :=
  [ ⟨"s", .requestWillBeSent "r4" "http://img.test/a.png" "GET" [] none, none⟩
  , ⟨"s", .responseReceived "r4" 200 "image/png" [], none⟩
  , ⟨"s", .loadingFinished "r4" 2048, some "BODY"⟩ ]

/-- The finalize event arriving after the excluded response. -/
def c4wPost : List Frame := [⟨"s", .loadingFinished "r4" 2048, some "BODY"⟩]

/-- A correlator with one outstanding command (id 1) and no replies. -/
def c5state : CorrState :=
  { msg_id := 1, pending := fun k => decide (k = 1), resolved := fun _ => none }

/-- A freshly constructed correlator: `msg_id = 0`, nothing pending. -/
def c6state : CorrState :=
  { msg_id := 0, pending := fun _ => false, resolved := fun _ => none }

/-- A paused daemon state holding one in-flight entry and a non-empty
active log file. -/
def c9state : DaemonState :=
  { store := fun k => if k = "r9" then some c3entry else none
  , sessions := fun _ => none
  , fs := { active := some ⟨100, []⟩, rot := fun _ => none, paused := true }
  , clock := 0 }

/-- A paused log directory whose active file is far above the threshold. -/
def c10fs : FS :=
  { active := some ⟨MAX_LOG_SIZE + 12345, []⟩, rot := fun _ => none, paused := true }

/-- `run` distributes over list append. -/
theorem run_append (esz : Entry → Nat) (st : DaemonState) (xs ys : List Frame) :
    run esz st (xs ++ ys) =
      ⟨(run esz (run esz st xs).st ys).st,
       (run esz st xs).persisted ++ (run esz (run esz st xs).st ys).persisted,
       (run esz st xs).fetched + (run esz (run esz st xs).st ys).fetched⟩ := by
  induction xs generalizing st with
  | nil => simp [run]
  | cons f rest ih =>
      simp [run, ih, List.append_assoc, Nat.add_assoc]

/-- Processing frames for id `r` that contain no request-started, from a
state with no ledger entry for `r`, persists nothing, fetches nothing, and
leaves both the `r` entry (absent) and the file system untouched. -/
theorem run_no_entry (esz : Entry → Nat) (r : String) :
    ∀ (evs : List Frame) (st : DaemonState), framesFor r evs →
    (∀ f ∈ evs, f.isStarted = false) → st.store r = none →
    (run esz st evs).persisted = [] ∧ (run esz st evs).fetched = 0 ∧
    (run esz st evs).st.store r = none ∧ (run esz st evs).st.fs = st.fs := by
  intro evs
  induction evs with
  | nil => intro st _ _ hst; simp [run, hst]
  | cons f rest ih =>
      intro st hid hns hst
      have hidf : f.event.requestId = r := hid f (List.mem_cons_self f rest)
      have hnsf : f.isStarted = false := hns f (List.mem_cons_self f rest)
      have hidr : framesFor r rest := fun g hg => hid g (List.mem_cons_of_mem f hg)
      have hnsr : ∀ g ∈ rest, g.isStarted = false :=
        fun g hg => hns g (List.mem_cons_of_mem f hg)
      obtain ⟨sid, ev, orc⟩ := f
      cases ev with
      | requestWillBeSent rid url method headers postData =>
          simp [Frame.isStarted] at hnsf
      | responseReceived rid status mimeType headers =>
          have hrid : rid = r := hidf
          subst hrid
          by_cases hskip : should_skip_mime (some mimeType) = true
          · have hstep : step esz st ⟨sid, .responseReceived rid status mimeType headers, orc⟩ =
                ⟨{ st with store := (complete_request st.store rid).2 }, [], 0⟩ := by
              simp [step, handle_response_received, hskip]
            have hst' : ({ st with store := (complete_request st.store rid).2 } :
                DaemonState).store rid = none := by
              simp [complete_request]
            have := ih ({ st with store := (complete_request st.store rid).2 }) hidr hnsr hst'
            simp [run, hstep, this]
          · have hstep : step esz st ⟨sid, .responseReceived rid status mimeType headers, orc⟩ =
                ⟨handle_response_received st rid status mimeType headers, [], 0⟩ := by
              simp [step]
            have hst' : (handle_response_received st rid status mimeType headers).store rid
                = none := by
              simp [handle_response_received, hskip, update_request, hst]
            have hfs' : (handle_response_received st rid status mimeType headers).fs = st.fs := by
              simp [handle_response_received, hskip]
            have := ih (handle_response_received st rid status mimeType headers) hidr hnsr hst'
            simp [run, hstep, this, hfs']
      | loadingFinished rid len =>
          have hrid : rid = r := hidf
          subst hrid
          have hstep : step esz st ⟨sid, .loadingFinished rid len, orc⟩ = ⟨st, [], 0⟩ := by
            simp [step, handle_loading_finished, get_request, hst]
          have := ih st hidr hnsr hst
          simp [run, hstep, this]
      | loadingFailed rid err =>
          have hrid : rid = r := hidf
          subst hrid
          have hstep : step esz st ⟨sid, .loadingFailed rid err, orc⟩ = ⟨st, [], 0⟩ := by
            simp [step, handle_loading_failed, get_request, hst]
          have := ih st hidr hnsr hst
          simp [run, hstep, this]

/-- Frames containing neither a request-started nor a finalize event (so
only response-received events) persist nothing, fetch nothing and leave
the file system untouched, from any state. -/
theorem run_no_finalize (esz : Entry → Nat) :
    ∀ (evs : List Frame) (st : DaemonState),
    (∀ f ∈ evs, f.isStarted = false) → (∀ f ∈ evs, f.isFinalize = false) →
    (run esz st evs).persisted = [] ∧ (run esz st evs).fetched = 0 ∧
    (run esz st evs).st.fs = st.fs := by
  intro evs
  induction evs with
  | nil => intro st _ _; simp [run]
  | cons f rest ih =>
      intro st hns hnf
      have hnsf : f.isStarted = false := hns f (List.mem_cons_self f rest)
      have hnff : f.isFinalize = false := hnf f (List.mem_cons_self f rest)
      have hnsr : ∀ g ∈ rest, g.isStarted = false :=
        fun g hg => hns g (List.mem_cons_of_mem f hg)
      have hnfr : ∀ g ∈ rest, g.isFinalize = false :=
        fun g hg => hnf g (List.mem_cons_of_mem f hg)
      obtain ⟨sid, ev, orc⟩ := f
      cases ev with
      | requestWillBeSent rid url method headers postData =>
          simp [Frame.isStarted] at hnsf
      | loadingFinished rid len => simp [Frame.isFinalize] at hnff
      | loadingFailed rid err => simp [Frame.isFinalize] at hnff
      | responseReceived rid status mimeType headers =>
          have hfs' : (handle_response_received st rid status mimeType headers).fs = st.fs := by
            by_cases hskip : should_skip_mime (some mimeType) = true <;>
              simp [handle_response_received, hskip]
          have := ih (handle_response_received st rid status mimeType headers) hnsr hnfr
          simp [run, step, this, hfs']

/-- From a state holding a ledger entry for `r` and an unpaused log, frames
for `r` without request-started persist exactly one record if `finalizesB`
holds of them, and none otherwise. -/
theorem run_entry (esz : Entry → Nat) (r : String) :
    ∀ (evs : List Frame) (st : DaemonState) (e : Entry), framesFor r evs →
    (∀ f ∈ evs, f.isStarted = false) →
    st.store r = some e → st.fs.paused = false →
    (run esz st evs).persisted.length = (if finalizesB evs then 1 else 0) := by
  intro evs
  induction evs with
  | nil => intro st e _ _ _ _; simp [run, finalizesB]
  | cons f rest ih =>
      intro st e hid hns hst hp
      have hidf : f.event.requestId = r := hid f (List.mem_cons_self f rest)
      have hnsf : f.isStarted = false := hns f (List.mem_cons_self f rest)
      have hidr : framesFor r rest := fun g hg => hid g (List.mem_cons_of_mem f hg)
      have hnsr : ∀ g ∈ rest, g.isStarted = false :=
        fun g hg => hns g (List.mem_cons_of_mem f hg)
      obtain ⟨sid, ev, orc⟩ := f
      cases ev with
      | requestWillBeSent rid url method headers postData =>
          simp [Frame.isStarted] at hnsf
      | responseReceived rid status mimeType headers =>
          have hrid : rid = r := hidf
          subst hrid
          by_cases hskip : should_skip_mime (some mimeType) = true
          · have hst' : (handle_response_received st rid status mimeType headers).store rid
                = none := by
              simp [handle_response_received, hskip, complete_request]
            have := run_no_entry esz rid rest
              (handle_response_received st rid status mimeType headers) hidr hnsr hst'
            simp [run, step, finalizesB, hskip, this]
          · have hst' : (handle_response_received st rid status mimeType headers).store rid
                = some ({ e with status := some status
                                , mime := some mimeType
                                , responseHeaders := some headers }) := by
              simp [handle_response_received, hskip, update_request, hst]
            have hfs' : (handle_response_received st rid status mimeType headers).fs
                = st.fs := by
              simp [handle_response_received, hskip]
            have := ih (handle_response_received st rid status mimeType headers) _ hidr hnsr
              hst' (by rw [hfs']; exact hp)
            simp [run, step, finalizesB, hskip, this]
      | loadingFinished rid len =>
          have hrid : rid = r := hidf
          subst hrid
          -- the step writes exactly one line and removes the entry
          have hlen : ((step esz st ⟨sid, .loadingFinished rid len, orc⟩).persisted).length = 1 ∧
              (step esz st ⟨sid, .loadingFinished rid len, orc⟩).st.store rid = none := by
            by_cases hm : should_skip_mime (some (({ e with size := some len } :
                Entry).mime.getD "")) = true
            · simp [step, handle_loading_finished, get_request, hst, hm, write_request,
                is_paused, hp, complete_request]
            · cases orc with
              | none =>
                  simp [step, handle_loading_finished, get_request, hst, hm, write_request,
                    is_paused, hp, complete_request]
              | some body =>
                  by_cases hb : body = "" <;>
                    simp [step, handle_loading_finished, get_request, hst, hm, hb,
                      write_request, is_paused, hp, complete_request]
          have hrest := run_no_entry esz rid rest
            (step esz st ⟨sid, .loadingFinished rid len, orc⟩).st hidr hnsr hlen.2
          simp [run, finalizesB, hrest.1, hlen.1]
      | loadingFailed rid err =>
          have hrid : rid = r := hidf
          subst hrid
          have hlen : ((step esz st ⟨sid, .loadingFailed rid err, orc⟩).persisted).length = 1 ∧
              (step esz st ⟨sid, .loadingFailed rid err, orc⟩).st.store rid = none := by
            simp [step, handle_loading_failed, get_request, hst, write_request,
              is_paused, hp, complete_request]
          have hrest := run_no_entry esz rid rest
            (step esz st ⟨sid, .loadingFailed rid err, orc⟩).st hidr hnsr hlen.2
          simp [run, finalizesB, hrest.1, hlen.1]

/-- `emitsRecordSpec` skips over a prefix without request-started events. -/
theorem emitsRecordSpec_append (s l : List Frame)
    (hns : ∀ f ∈ s, f.isStarted = false) :
    emitsRecordSpec (s ++ l) = emitsRecordSpec l := by
  induction s with
  | nil => simp
  | cons f rest ih =>
      have hnsf : f.isStarted = false := hns f (List.mem_cons_self f rest)
      have hnsr : ∀ g ∈ rest, g.isStarted = false :=
        fun g hg => hns g (List.mem_cons_of_mem f hg)
      obtain ⟨sid, ev, orc⟩ := f
      cases ev with
      | requestWillBeSent rid url method headers postData =>
          simp [Frame.isStarted] at hnsf
      | responseReceived rid status mimeType headers =>
          simp [emitsRecordSpec, ih hnsr]
      | loadingFinished rid len => simp [emitsRecordSpec, ih hnsr]
      | loadingFailed rid err => simp [emitsRecordSpec, ih hnsr]

/-- Without a request-started event no record is characterized as emitted. -/
theorem emitsRecordSpec_no_start (l : List Frame)
    (hns : ∀ f ∈ l, f.isStarted = false) :
    emitsRecordSpec l = false := by
  have := emitsRecordSpec_append l [] hns
  simpa [emitsRecordSpec] using this

/-- C1 (amended).  For every sequence of network events sharing request id
`r` that contains at most one request-started event (response-received,
loading-finished and loading-failed in any order and multiplicity), at most
one record is persisted, and a record is persisted if and only if the
sequence contains a request-started whose URL passes the noise filter
followed by a finalize event with no intervening response-received carrying
an excluded binary MIME type. -/
theorem C1_single_record_iff_filters (esz : Entry → Nat) (r : String)
    (evs : List Frame) (hid : framesFor r evs)
    (hone : evs.countP Frame.isStarted ≤ 1) :
    (run esz initState evs).persisted.length ≤ 1 ∧
    ((run esz initState evs).persisted.length = 1 ↔ emitsRecordSpec evs = true) := by
  by_cases hany : evs.any Frame.isStarted = true
  · obtain ⟨f, hf, hpf⟩ := List.any_eq_true.mp hany
    obtain ⟨s, t, rfl⟩ := List.append_of_mem hf
    have hcs : s.countP Frame.isStarted = 0 ∧ t.countP Frame.isStarted = 0 := by
      rw [List.countP_append, List.countP_cons] at hone
      simp only [hpf, if_pos] at hone
      omega
    have hnss : ∀ g ∈ s, g.isStarted = false := by
      intro g hg
      have := (List.countP_eq_zero.mp hcs.1) g hg
      revert this; cases g.isStarted <;> simp
    have hnst : ∀ g ∈ t, g.isStarted = false := by
      intro g hg
      have := (List.countP_eq_zero.mp hcs.2) g hg
      revert this; cases g.isStarted <;> simp
    have hids : framesFor r s := fun g hg => hid g (by simp [hg])
    have hidt : framesFor r t := fun g hg => hid g (by simp [hg])
    have hidf : f.event.requestId = r := hid f (by simp)
    have hs := run_no_entry esz r s initState hids hnss (by simp [initState])
    obtain ⟨sid, ev, orc⟩ := f
    cases ev with
    | responseReceived rid status mimeType headers => simp [Frame.isStarted] at hpf
    | loadingFinished rid len => simp [Frame.isStarted] at hpf
    | loadingFailed rid err => simp [Frame.isStarted] at hpf
    | requestWillBeSent rid url method headers postData =>
        have hrid : rid = r := hidf
        subst hrid
        have hspec : emitsRecordSpec
            (s ++ ⟨sid, .requestWillBeSent rid url method headers postData, orc⟩ :: t) =
            (if should_skip_url url then false else finalizesB t) := by
          rw [emitsRecordSpec_append s _ hnss]; simp [emitsRecordSpec]
        rw [run_append]
        set st1 := (run esz initState s).st with hst1
        by_cases hurl : should_skip_url url = true
        · have hstep : step esz st1 ⟨sid, .requestWillBeSent rid url method headers postData, orc⟩
              = ⟨st1, [], 0⟩ := by
            simp [step, handle_request_will_be_sent, hurl]
          have ht := run_no_entry esz rid t st1 hidt hnst hs.2.2.1
          simp [run, hstep, hs.1, ht.1, hspec, hurl]
        · have hurl' : should_skip_url url = false := by
            revert hurl; cases should_skip_url url <;> simp
          have hstore2 : (handle_request_will_be_sent st1 sid rid url method headers
              postData).store rid ≠ none := by
            simp [handle_request_will_be_sent, hurl', start_request]
          obtain ⟨e2, he2⟩ : ∃ e2, (handle_request_will_be_sent st1 sid rid url method headers
              postData).store rid = some e2 := by
            cases hcase : (handle_request_will_be_sent st1 sid rid url method headers
              postData).store rid with
            | none => exact absurd hcase hstore2
            | some e2 => exact ⟨e2, rfl⟩
          have hfs2 : (handle_request_will_be_sent st1 sid rid url method headers
              postData).fs = st1.fs := by
            simp [handle_request_will_be_sent, hurl']
          have hp2 : (handle_request_will_be_sent st1 sid rid url method headers
              postData).fs.paused = false := by
            rw [hfs2, hs.2.2.2]; rfl
          have ht := run_entry esz rid t
            (handle_request_will_be_sent st1 sid rid url method headers postData) e2
            hidt hnst he2 hp2
          have hstep : step esz st1 ⟨sid, .requestWillBeSent rid url method headers postData, orc⟩
              = ⟨handle_request_will_be_sent st1 sid rid url method headers postData, [], 0⟩ := by
            simp [step]
          by_cases hfin : finalizesB t = true <;>
            simp [run, hstep, hs.1, ht, hspec, hurl', hfin]
  · have hns : ∀ g ∈ evs, g.isStarted = false := by
      intro g hg
      by_contra hgs
      have hgs' : g.isStarted = true := by revert hgs; cases g.isStarted <;> simp
      exact hany (List.any_eq_true.mpr ⟨g, hg, hgs'⟩)
    have h0 := run_no_entry esz r evs initState hid hns (by simp [initState])
    simp [h0.1, emitsRecordSpec_no_start evs hns]

/-- C1 (counterexample).  Under the claim's "any order and multiplicity",
two request-started/loading-finished cycles for the same id persist two
records, refuting "at most one persisted record"; and a sequence holding
only a request-started that passes both filters persists no record,
refuting the "if and only if" as stated. -/
theorem C1_counterexample :
    (run esz1 initState c1cexFrames).persisted.length = 2 ∧
    should_skip_url "http://a.test/" = false ∧
    (run esz1 initState c1soloFrame).persisted.length = 0 := by decide

/-- C1 (witness): the amended theorem applied to one started/finished cycle. -/
theorem C1_witness :
    (run esz1 initState c1wFrames).persisted.length ≤ 1 ∧
    ((run esz1 initState c1wFrames).persisted.length = 1 ↔
      emitsRecordSpec c1wFrames = true) :=
  C1_single_record_iff_filters esz1 "r1" c1wFrames
    (by intro f hf; fin_cases hf <;> rfl) (by decide)

/-- Everything `write_request` appends is the record it was asked to write. -/
theorem write_request_mem (esz : Entry → Nat) (fs : FS) (r : Entry) :
    ∀ e ∈ (write_request esz fs r).2, e = r := by
  by_cases hp : is_paused fs = true <;> simp [write_request, hp]

/-- One step preserves "every stored entry's URL passed the noise filter"
and only persists records whose URL passed the noise filter. -/
theorem step_good (esz : Entry → Nat) (st : DaemonState) (f : Frame)
    (h : ∀ k e, st.store k = some e → should_skip_url e.url = false) :
    (∀ k e, (step esz st f).st.store k = some e → should_skip_url e.url = false) ∧
    (∀ e ∈ (step esz st f).persisted, should_skip_url e.url = false) := by
  obtain ⟨sid, ev, orc⟩ := f
  cases ev with
  | requestWillBeSent rid url method headers postData =>
      by_cases hurl : should_skip_url url = true
      · constructor
        · intro k e hk
          exact h k e (by simpa [step, handle_request_will_be_sent, hurl] using hk)
        · simp [step, handle_request_will_be_sent, hurl]
      · have hurl' : should_skip_url url = false := by
          revert hurl; cases should_skip_url url <;> simp
        constructor
        · intro k e hk
          simp only [step, handle_request_will_be_sent, hurl', if_neg, Bool.false_eq_true,
            not_false_iff, start_request] at hk
          by_cases hkr : k = rid
          · rw [if_pos hkr] at hk
            cases hk
            simpa using hurl'
          · rw [if_neg hkr] at hk
            exact h k e hk
        · simp [step]
  | responseReceived rid status mimeType headers =>
      constructor
      · intro k e hk
        by_cases hskip : should_skip_mime (some mimeType) = true
        · simp only [step, handle_response_received, hskip, if_pos, complete_request] at hk
          by_cases hkr : k = rid
          · rw [if_pos hkr] at hk; cases hk
          · rw [if_neg hkr] at hk; exact h k e hk
        · simp only [step, handle_response_received, hskip, Bool.false_eq_true, if_neg,
            not_false_iff, update_request] at hk
          by_cases hkr : k = rid
          · rw [if_pos hkr, hkr] at hk
            cases hmem : st.store rid with
            | none => rw [hmem] at hk; cases hk  -- impossible: map of none
            | some e0 =>
                rw [hmem] at hk
                simp only [Option.map_some'] at hk
                have hg := h rid e0 hmem
                cases hk
                simpa using hg
          · rw [if_neg hkr] at hk; exact h k e hk
      · by_cases hskip : should_skip_mime (some mimeType) = true <;> simp [step, hskip]
  | loadingFinished rid len =>
      cases hreq : st.store rid with
      | none =>
          constructor
          · intro k e hk
            exact h k e (by simpa [step, handle_loading_finished, get_request, hreq] using hk)
          · simp [step, handle_loading_finished, get_request, hreq]
      | some request =>
          have hgoodreq : should_skip_url request.url = false := h rid request hreq
          constructor
          · intro k e hk
            simp only [step, handle_loading_finished, get_request, hreq] at hk
            by_cases hkr : k = rid
            · by_cases hm : should_skip_mime (some (({ request with size := some len } :
                  Entry).mime.getD "")) = true
              · simp only [hm, if_pos] at hk
                simp [complete_request, hkr] at hk
              · simp only [hm, Bool.false_eq_true, if_neg, not_false_iff] at hk
                cases orc with
                | none => simp [complete_request, hkr] at hk
                | some body =>
                    by_cases hb : body = "" <;> simp [hb, complete_request, hkr] at hk
            · by_cases hm : should_skip_mime (some (({ request with size := some len } :
                  Entry).mime.getD "")) = true
              · simp only [hm, if_pos] at hk
                simp only [complete_request, if_neg hkr] at hk
                exact h k e hk
              · simp only [hm, Bool.false_eq_true, if_neg, not_false_iff] at hk
                cases orc with
                | none =>
                    simp only [complete_request, if_neg hkr] at hk
                    exact h k e hk
                | some body =>
                    by_cases hb : body = "" <;>
                      · simp only [hb, complete_request, if_neg hkr] at hk
                        exact h k e hk
          · intro e he
            simp only [step, handle_loading_finished, get_request, hreq] at he
            by_cases hm : should_skip_mime (some (({ request with size := some len } :
                Entry).mime.getD "")) = true
            · simp only [hm, if_pos] at he
              have := write_request_mem esz st.fs _ e he
              subst this
              simpa using hgoodreq
            · simp only [hm, Bool.false_eq_true, if_neg, not_false_iff] at he
              cases orc with
              | none =>
                  have := write_request_mem esz st.fs _ e he
                  subst this
                  simpa using hgoodreq
              | some body =>
                  by_cases hb : body = ""
                  · simp only [hb, if_pos] at he
                    have := write_request_mem esz st.fs _ e he
                    subst this
                    simpa using hgoodreq
                  · simp only [hb, if_neg, Bool.false_eq_true, not_false_iff] at he
                    have := write_request_mem esz st.fs _ e he
                    subst this
                    simpa using hgoodreq
  | loadingFailed rid err =>
      cases hreq : st.store rid with
      | none =>
          constructor
          · intro k e hk
            exact h k e (by simpa [step, handle_loading_failed, get_request, hreq] using hk)
          · simp [step, handle_loading_failed, get_request, hreq]
      | some request =>
          have hgoodreq : should_skip_url request.url = false := h rid request hreq
          constructor
          · intro k e hk
            simp only [step, handle_loading_failed, get_request, hreq, complete_request] at hk
            by_cases hkr : k = rid
            · simp [hkr] at hk
            · rw [if_neg hkr] at hk; exact h k e hk
          · intro e he
            simp only [step, handle_loading_failed, get_request, hreq] at he
            have := write_request_mem esz st.fs _ e he
            subst this
            simpa using hgoodreq

/-- Every record persisted by a run from a good store has a URL that
passed the noise filter. -/
theorem run_good (esz : Entry → Nat) :
    ∀ (evs : List Frame) (st : DaemonState),
    (∀ k e, st.store k = some e → should_skip_url e.url = false) →
    ∀ e ∈ (run esz st evs).persisted, should_skip_url e.url = false := by
  intro evs
  induction evs with
  | nil => intro st _ e he; simp [run] at he
  | cons f rest ih =>
      intro st h e he
      have hstep := step_good esz st f h
      simp only [run, List.mem_append] at he
      cases he with
      | inl he => exact hstep.2 e he
      | inr he => exact ih (step esz st f).st hstep.1 e he

/-- C2 (amended).  Filtering at request-started is a case-sensitive
substring match: no persisted record's URL contains the exact lowercase
substring `google-analytics.com` (other letter cases are not filtered). -/
theorem C2_no_lowercase_analytics_persisted (esz : Entry → Nat)
    (evs : List Frame) (e : Entry)
    (he : e ∈ (run esz initState evs).persisted) :
    strContains e.url "google-analytics.com" = false := by
  have hgood := run_good esz evs initState
    (by intro k e' hke'; simp [initState] at hke') e he
  by_contra hc
  have hc' : strContains e.url "google-analytics.com" = true := by
    revert hc; cases strContains e.url "google-analytics.com" <;> simp
  have : should_skip_url e.url = true := by
    unfold should_skip_url
    exact List.any_eq_true.mpr ⟨"google-analytics.com", by simp [SKIP_URL_PATTERNS], hc'⟩
  rw [this] at hgood
  cases hgood

/-- C2 (counterexample).  The URL match is case-sensitive (`pattern in url`
on raw strings), so `https://GOOGLE-ANALYTICS.COM/collect` is not filtered
and a record with that URL is persisted; lowercasing that persisted URL
exhibits the substring `google-analytics.com`, refuting "in any letter
case". -/
theorem C2_counterexample :
    (run esz1 initState c2cexFrames).persisted.map (fun e => e.url)
      = ["https://GOOGLE-ANALYTICS.COM/collect"] ∧
    strContains (String.mk ("https://GOOGLE-ANALYTICS.COM/collect".data.map Char.toLower))
      "google-analytics.com" = true := by decide

/-- C2 (witness): the amended theorem applied to a concrete persisted record. -/
theorem C2_witness :
    strContains c2wEntry.url "google-analytics.com" = false :=
  C2_no_lowercase_analytics_persisted esz1 c2wFrames c2wEntry (by decide)

/-- The shift loop runs over generations `[2, 1]`. -/
theorem shiftIndices_eq : shiftIndices = [2, 1] := by decide

/-- `rotate_logs` does not touch generations numbered 4 and above. -/
theorem rotate_logs_rot_high (fs : FS) (i : Nat) (hi : 4 ≤ i) :
    (rotate_logs fs).rot i = fs.rot i := by
  have h1 : i ≠ 1 := by omega
  have h2 : i ≠ 2 := by omega
  have h3 : i ≠ 3 := by omega
  unfold rotate_logs
  rw [shiftIndices_eq]
  simp only [List.foldl]
  cases h3' : fs.rot 3 <;>
    simp only [MAX_ROTATED_FILES, h3', Option.isSome_none, Option.isSome_some,
      Bool.false_eq_true, if_neg, if_pos, not_false_iff, eraseRot] <;>
  · by_cases h2' : (if (3 : Nat) = 3 then (none : Option FileD) else fs.rot 3) = none
    all_goals
      cases hg2 : fs.rot 2 <;> cases hg1 : fs.rot 1 <;>
        simp [shiftGen, hg2, hg1, h1, h2, h3] <;>
        cases hga : fs.active <;> simp [hga, h1, h2, h3]

/-- C3 (amended).  A non-paused write finding the active log file strictly
above `MAX_LOG_SIZE` first rotates — the old generation 3 is dropped,
generation 2 becomes 3, generation 1 becomes 2, the active file becomes
generation 1 — and then appends the record to a fresh active file. -/
theorem C3_rotate_then_append (esz : Entry → Nat) (fs : FS) (fd : FileD) (r : Entry)
    (hp : fs.paused = false) (ha : fs.active = some fd) (hsz : MAX_LOG_SIZE < fd.sz) :
    (write_request esz fs r).1.active = some ⟨esz r, [r]⟩ ∧
    (write_request esz fs r).1.rot 1 = some fd ∧
    (write_request esz fs r).1.rot 2 = fs.rot 1 ∧
    (write_request esz fs r).1.rot 3 = fs.rot 2 ∧
    (∀ i, 4 ≤ i → (write_request esz fs r).1.rot i = fs.rot i) ∧
    (write_request esz fs r).2 = [r] := by
  have hov : log_file_oversize fs = true := by
    simp [log_file_oversize, ha, hsz]
  have hrot : (rotate_logs fs).active = none ∧
      (rotate_logs fs).rot 1 = some fd ∧
      (rotate_logs fs).rot 2 = fs.rot 1 ∧
      (rotate_logs fs).rot 3 = fs.rot 2 := by
    unfold rotate_logs
    rw [shiftIndices_eq]
    simp only [List.foldl]
    cases h3' : fs.rot 3 <;>
      cases h2' : fs.rot 2 <;>
        cases h1' : fs.rot 1 <;>
          simp [MAX_ROTATED_FILES, eraseRot, shiftGen, h3', h2', h1', ha]
  have hw : write_request esz fs r =
      ({ rotate_logs fs with active := some ⟨esz r, [r]⟩ }, [r]) := by
    unfold write_request
    rw [if_neg (by simp [is_paused, hp]), if_pos hov]
    show ({ rotate_logs fs with active := some (match (rotate_logs fs).active with
        | some fd => FileD.mk (fd.sz + esz r) (fd.lines ++ [r])
        | none => FileD.mk (esz r) [r]) }, [r]) = _
    rw [hrot.1]
  refine ⟨by rw [hw], ?_, ?_, ?_, ?_, by rw [hw]⟩
  · rw [hw]; exact hrot.2.1
  · rw [hw]; exact hrot.2.2.1
  · rw [hw]; exact hrot.2.2.2
  · intro i hi; rw [hw]; exact rotate_logs_rot_high fs i hi

/-- C3 (counterexample).  The size check is `st_size > MAX_LOG_SIZE`
(strict), so with the active file at exactly 50 MB ("at the threshold")
the next write does not rotate: no generation 1 appears and the record is
appended to the same, now over-threshold, active file. -/
theorem C3_counterexample :
    c3fs.active = some ⟨MAX_LOG_SIZE, []⟩ ∧
    log_file_oversize c3fs = false ∧
    (write_request esz1 c3fs c3entry).1.rot 1 = none ∧
    (write_request esz1 c3fs c3entry).1.active
      = some ⟨MAX_LOG_SIZE + 1, [c3entry]⟩ := by decide

/-- C3 (witness): the amended theorem applied to a concrete over-threshold
directory with three existing generations; the prior generation 3 (size 7)
is gone, generations shift up, the old active file becomes generation 1 and
the record lands in a fresh active file. -/
theorem C3_witness :
    (write_request esz1 c3wfs c3entry).1.active = some ⟨1, [c3entry]⟩ ∧
    (write_request esz1 c3wfs c3entry).1.rot 1 = some ⟨MAX_LOG_SIZE + 1, []⟩ ∧
    (write_request esz1 c3wfs c3entry).1.rot 2 = some ⟨5, []⟩ ∧
    (write_request esz1 c3wfs c3entry).1.rot 3 = some ⟨6, []⟩ ∧
    (write_request esz1 c3wfs c3entry).1.rot 4 = none ∧
    (write_request esz1 c3wfs c3entry).2 = [c3entry] := by
  obtain ⟨h1, h2, h3, h4, h5, h6⟩ :=
    C3_rotate_then_append esz1 c3wfs ⟨MAX_LOG_SIZE + 1, []⟩ c3entry rfl rfl (by decide)
  exact ⟨h1, h2, by rw [h3]; decide, by rw [h4]; decide,
    by rw [h5 4 (by decide)]; decide, h6⟩

/-- C4 (amended).  For every single-request-id sequence in which a
request-started is followed — with no intervening finalize — by a
response-received carrying an excluded binary MIME type (such as
`image/png`), the ledger entry is removed immediately at response-received:
no body fetch is ever attempted, no record at all is persisted (so in
particular no persisted record has `responseBody` populated), and the
ledger ends with no entry for the id. -/
theorem C4_excluded_mime_no_record (esz : Entry → Nat) (r : String)
    (pre mid post : List Frame) (sid1 sid2 : String) (orc1 orc2 : Option String)
    (u m : String) (hs : List (String × String)) (pd : Option String)
    (status : Nat) (mt : String) (rh : List (String × String))
    (hmime : should_skip_mime (some mt) = true)
    (hid : framesFor r (pre ++ ⟨sid1, .requestWillBeSent r u m hs pd, orc1⟩ ::
      (mid ++ ⟨sid2, .responseReceived r status mt rh, orc2⟩ :: post)))
    (hpre : ∀ f ∈ pre, f.isStarted = false)
    (hmidS : ∀ f ∈ mid, f.isStarted = false)
    (hmidF : ∀ f ∈ mid, f.isFinalize = false)
    (hpost : ∀ f ∈ post, f.isStarted = false) :
    (run esz initState (pre ++ ⟨sid1, .requestWillBeSent r u m hs pd, orc1⟩ ::
      (mid ++ ⟨sid2, .responseReceived r status mt rh, orc2⟩ :: post))).persisted = [] ∧
    (run esz initState (pre ++ ⟨sid1, .requestWillBeSent r u m hs pd, orc1⟩ ::
      (mid ++ ⟨sid2, .responseReceived r status mt rh, orc2⟩ :: post))).fetched = 0 ∧
    (run esz initState (pre ++ ⟨sid1, .requestWillBeSent r u m hs pd, orc1⟩ ::
      (mid ++ ⟨sid2, .responseReceived r status mt rh, orc2⟩ :: post))).st.store r
      = none := by
  have hids : framesFor r pre := fun g hg => hid g (by simp [hg])
  have hidpost : framesFor r post := fun g hg => hid g (by simp [hg])
  have hpre' := run_no_entry esz r pre initState hids hpre (by simp [initState])
  rw [run_append]
  simp only [run]
  set st1 := (run esz initState pre).st with hst1
  set st2 := (step esz st1 ⟨sid1, .requestWillBeSent r u m hs pd, orc1⟩).st with hst2
  have hstep1p : (step esz st1 ⟨sid1, .requestWillBeSent r u m hs pd, orc1⟩).persisted = []
      ∧ (step esz st1 ⟨sid1, .requestWillBeSent r u m hs pd, orc1⟩).fetched = 0 := by
    simp [step]
  have hmid' := run_no_finalize esz mid st2 hmidS hmidF
  rw [run_append]
  simp only [run]
  set st3 := (run esz st2 mid).st with hst3
  have hstep2 : (step esz st3 ⟨sid2, .responseReceived r status mt rh, orc2⟩) =
      ⟨{ st3 with store := (complete_request st3.store r).2 }, [], 0⟩ := by
    simp [step, handle_response_received, hmime]
  have hst4 : ({ st3 with store := (complete_request st3.store r).2 } :
      DaemonState).store r = none := by
    simp [complete_request]
  have hpost' := run_no_entry esz r post
    ({ st3 with store := (complete_request st3.store r).2 }) hidpost hpost hst4
  simp [hpre'.1, hpre'.2.1, hstep1p.1, hstep1p.2, hmid'.1, hmid'.2.1, hstep2,
    hpost'.1, hpost'.2.1, hpost'.2.2.1]

/-- C4 (counterexample).  A request whose response carries `image/png` is
removed from the ledger at response-received, so the loading-finished event
is a no-op: no record at all is persisted — contradicting the claim that a
record is produced through the failed/response-excluded path with size and
status captured.  No body fetch is attempted either. -/
theorem C4_counterexample :
    should_skip_url "http://img.test/a.png" = false ∧
    should_skip_mime (some "image/png") = true ∧
    (run esz1 initState c4cexFrames).persisted = [] ∧
    (run esz1 initState c4cexFrames).fetched = 0 := by decide

/-- C4 (witness): the amended theorem applied to the canonical
started / png-response / finished sequence. -/
theorem C4_witness :
    (run esz1 initState
      ([⟨"s", .requestWillBeSent "r4" "http://img.test/a.png" "GET" [] none, none⟩,
        ⟨"s", .responseReceived "r4" 200 "image/png" [], none⟩] ++ c4wPost)).persisted = [] ∧
    (run esz1 initState
      ([⟨"s", .requestWillBeSent "r4" "http://img.test/a.png" "GET" [] none, none⟩,
        ⟨"s", .responseReceived "r4" 200 "image/png" [], none⟩] ++ c4wPost)).fetched = 0 ∧
    (run esz1 initState
      ([⟨"s", .requestWillBeSent "r4" "http://img.test/a.png" "GET" [] none, none⟩,
        ⟨"s", .responseReceived "r4" 200 "image/png" [], none⟩] ++ c4wPost)).st.store "r4"
      = none :=
  C4_excluded_mime_no_record esz1 "r4" [] [] c4wPost "s" "s" none none
    "http://img.test/a.png" "GET" [] none 200 "image/png" [] (by decide)
    (by intro f hf; fin_cases hf <;> rfl)
    (by intro f hf; cases hf) (by intro f hf; cases hf) (by intro f hf; cases hf)
    (by intro f hf; fin_cases hf; rfl)

/-- C5 (confirmed).  A command whose matching-id reply has not arrived
within the timeout window yields the distinct timeout outcome — which is
never equal to a normal result — and its waiter is removed from the
pending-command table immediately. -/
theorem C5_timeout_removes_waiter (c : CorrState) (i : Nat)
    (hnoreply : c.resolved i = none) :
    (wait_for_reply c i).1 = CmdOutcome.timedOut ∧
    (∀ r : Reply, (wait_for_reply c i).1 ≠ CmdOutcome.ok r) ∧
    (wait_for_reply c i).2.pending i = false := by
  simp [wait_for_reply, hnoreply]

/-- C5 (witness): the theorem applied to a concrete correlator state with
command id 1 outstanding and nothing resolved. -/
theorem C5_witness :
    (wait_for_reply c5state 1).1 = CmdOutcome.timedOut ∧
    (wait_for_reply c5state 1).2.pending 1 = false :=
  ⟨(C5_timeout_removes_waiter c5state 1 rfl).1,
   (C5_timeout_removes_waiter c5state 1 rfl).2.2⟩

/-- C6 (confirmed).  Successive `send_command` calls assign strictly
increasing ids (`n+1` then `n+2`), and replies resolve waiters by id, not
send order: delivering B's reply first resolves only B — A's waiter stays
pending and unresolved — and A's reply later resolves A with A's payload. -/
theorem C6_replies_match_by_id (c0 : CorrState) (h : CorrWF c0) (pA pB : String) :
    (send_command c0).2 = c0.msg_id + 1 ∧
    (send_command (send_command c0).1).2 = c0.msg_id + 2 ∧
    (send_command c0).2 < (send_command (send_command c0).1).2 ∧
    (handle_reply (send_command (send_command c0).1).1
      ⟨c0.msg_id + 2, pB⟩).pending (c0.msg_id + 2) = false ∧
    (handle_reply (send_command (send_command c0).1).1
      ⟨c0.msg_id + 2, pB⟩).resolved (c0.msg_id + 2) = some ⟨c0.msg_id + 2, pB⟩ ∧
    (handle_reply (send_command (send_command c0).1).1
      ⟨c0.msg_id + 2, pB⟩).pending (c0.msg_id + 1) = true ∧
    (handle_reply (send_command (send_command c0).1).1
      ⟨c0.msg_id + 2, pB⟩).resolved (c0.msg_id + 1) = none ∧
    (handle_reply (handle_reply (send_command (send_command c0).1).1
      ⟨c0.msg_id + 2, pB⟩) ⟨c0.msg_id + 1, pA⟩).resolved (c0.msg_id + 1)
      = some ⟨c0.msg_id + 1, pA⟩ ∧
    (handle_reply (handle_reply (send_command (send_command c0).1).1
      ⟨c0.msg_id + 2, pB⟩) ⟨c0.msg_id + 1, pA⟩).pending (c0.msg_id + 1) = false := by
  have hne : c0.msg_id + 1 ≠ c0.msg_id + 2 := by omega
  have hres : c0.resolved (c0.msg_id + 1) = none := (h _ (by omega)).2
  simp [send_command, handle_reply, hne, hres]

/-- C6 (witness): the theorem applied to a fresh correlator, giving the
spec's concrete scenario with ids 1 and 2. -/
theorem C6_witness :
    (send_command c6state).2 = 1 ∧
    (send_command (send_command c6state).1).2 = 2 ∧
    (handle_reply (send_command (send_command c6state).1).1
      ⟨2, "replyB"⟩).pending 1 = true ∧
    (handle_reply (send_command (send_command c6state).1).1
      ⟨2, "replyB"⟩).resolved 2 = some ⟨2, "replyB"⟩ ∧
    (handle_reply (handle_reply (send_command (send_command c6state).1).1
      ⟨2, "replyB"⟩) ⟨1, "replyA"⟩).resolved 1 = some ⟨1, "replyA"⟩ := by
  have hc := C6_replies_match_by_id c6state
    (by intro i hi; exact ⟨rfl, rfl⟩) "replyA" "replyB"
  exact ⟨hc.1, hc.2.1, hc.2.2.2.2.2.1, hc.2.2.2.2.1, hc.2.2.2.2.2.2.2.1⟩

/-- C7 (confirmed).  A loading-finished or loading-failed event for a
request id with no ledger entry is a perfect no-op: the state (ledger,
sessions, log directory) is returned unchanged, nothing is persisted, no
body fetch is attempted, and — both handlers being total functions — no
exception is raised. -/
theorem C7_finalize_without_entry_noop (esz : Entry → Nat) (st : DaemonState)
    (rid : String) (len : Nat) (err : String) (orc : Option String)
    (h : st.store rid = none) :
    handle_loading_finished esz st rid len orc = (st, [], false) ∧
    handle_loading_failed esz st rid err = (st, []) := by
  simp [handle_loading_finished, handle_loading_failed, get_request, h]

/-- C7 (witness): the theorem applied to the initial state (empty ledger)
and a finalize event for an unknown request id. -/
theorem C7_witness :
    handle_loading_finished esz1 initState "ghost" 7 none = (initState, [], false) ∧
    handle_loading_failed esz1 initState "ghost" "net::ERR_FAILED" = (initState, []) :=
  C7_finalize_without_entry_noop esz1 initState "ghost" 7 "net::ERR_FAILED" none rfl

/-- C9 (confirmed).  A finalize event processed while the pause marker is
present still removes the request's ledger entry but appends nothing and
leaves the log directory untouched; the very same finalize applied to the
same state with the marker removed appends exactly one record — the marker
is consulted at write time, never cached. -/
theorem C9_pause_gate (esz : Entry → Nat) (st : DaemonState) (rid : String)
    (e : Entry) (len : Nat) (err : String) (orc : Option String)
    (hp : st.fs.paused = true) (he : st.store rid = some e) :
    ((handle_loading_finished esz st rid len orc).1.store rid = none ∧
     (handle_loading_finished esz st rid len orc).1.fs = st.fs ∧
     (handle_loading_finished esz st rid len orc).2.1 = []) ∧
    ((handle_loading_failed esz st rid err).1.store rid = none ∧
     (handle_loading_failed esz st rid err).1.fs = st.fs ∧
     (handle_loading_failed esz st rid err).2 = []) ∧
    ((handle_loading_finished esz { st with fs := { st.fs with paused := false } }
        rid len orc).2.1).length = 1 ∧
    ((handle_loading_failed esz { st with fs := { st.fs with paused := false } }
        rid err).2).length = 1 := by
  refine ⟨?_, ?_, ?_, ?_⟩
  · by_cases hm : should_skip_mime (some (({ e with size := some len } :
        Entry).mime.getD "")) = true
    · simp [handle_loading_finished, get_request, he, hm, write_request,
        is_paused, hp, complete_request]
    · cases orc with
      | none =>
          simp [handle_loading_finished, get_request, he, hm, write_request,
            is_paused, hp, complete_request]
      | some body =>
          by_cases hb : body = "" <;>
            simp [handle_loading_finished, get_request, he, hm, hb, write_request,
              is_paused, hp, complete_request]
  · simp [handle_loading_failed, get_request, he, write_request,
      is_paused, hp, complete_request]
  · by_cases hm : should_skip_mime (some (({ e with size := some len } :
        Entry).mime.getD "")) = true
    · simp [handle_loading_finished, get_request, he, hm, write_request, is_paused]
    · cases orc with
      | none =>
          simp [handle_loading_finished, get_request, he, hm, write_request, is_paused]
      | some body =>
          by_cases hb : body = "" <;>
            simp [handle_loading_finished, get_request, he, hm, hb,
              write_request, is_paused]
  · simp [handle_loading_failed, get_request, he, write_request, is_paused]

/-- C9 (witness): the theorem applied to a concrete paused state. -/
theorem C9_witness :
    ((handle_loading_finished esz1 c9state "r9" 5 none).1.store "r9" = none ∧
     (handle_loading_finished esz1 c9state "r9" 5 none).1.fs = c9state.fs ∧
     (handle_loading_finished esz1 c9state "r9" 5 none).2.1 = []) ∧
    ((handle_loading_failed esz1 c9state "r9" "err").1.store "r9" = none ∧
     (handle_loading_failed esz1 c9state "r9" "err").1.fs = c9state.fs ∧
     (handle_loading_failed esz1 c9state "r9" "err").2 = []) ∧
    ((handle_loading_finished esz1 { c9state with
        fs := { c9state.fs with paused := false } } "r9" 5 none).2.1).length = 1 ∧
    ((handle_loading_failed esz1 { c9state with
        fs := { c9state.fs with paused := false } } "r9" "err").2).length = 1 :=
  C9_pause_gate esz1 c9state "r9" c3entry 5 "err" none rfl (by decide)

/-- C10 (confirmed).  `write_request` returns before the rotation check
while the pause marker exists: a paused write changes nothing at all — in
particular it never rotates, no matter how large the active file is — so
rotation can only be triggered by a non-paused write. -/
theorem C10_paused_write_never_rotates (esz : Entry → Nat) (fs : FS) (r : Entry)
    (hp : fs.paused = true) :
    write_request esz fs r = (fs, []) := by
  simp [write_request, is_paused, hp]

/-- C10 (witness): the theorem applied to a paused directory with an
over-threshold active file — the write is a complete no-op. -/
theorem C10_witness :
    log_file_oversize c10fs = true ∧
    write_request esz1 c10fs c3entry = (c10fs, []) :=
  ⟨by decide, C10_paused_write_never_rotates esz1 c10fs c3entry rfl⟩

/-- `String.data` distributes over string append. -/
theorem strData_append (a b : String) : (a ++ b).data = a.data ++ b.data := rfl

/-- A prefix of `s` is still a prefix of `s ++ e`. -/
theorem startsWithList_append (p : List Char) :
    ∀ (s e : List Char), startsWithList p s = true → startsWithList p (s ++ e) = true := by
  induction p with
  | nil => intro s e _; simp [startsWithList]
  | cons a as ih =>
      intro s e hp
      cases s with
      | nil => simp [startsWithList] at hp
      | cons b bs =>
          simp only [startsWithList, Bool.and_eq_true] at hp
          simpa [startsWithList, hp.1] using ih bs e hp.2

/-- Containment in `s` gives containment in `s ++ e`. -/
theorem containsList_append_right (pat : List Char) :
    ∀ (s e : List Char), containsList s pat = true → containsList (s ++ e) pat = true := by
  intro s
  induction s with
  | nil =>
      intro e hc
      simp only [containsList, List.isEmpty_iff] at hc
      subst hc
      cases e with
      | nil => simp [containsList]
      | cons b bs => simp [containsList, startsWithList]
  | cons b bs ih =>
      intro e hc
      simp only [containsList, Bool.or_eq_true] at hc
      cases hc with
      | inl hc =>
          have := startsWithList_append pat (b :: bs) e hc
          simp only [List.cons_append, containsList, Bool.or_eq_true] at this ⊢
          exact Or.inl (by simpa using this)
      | inr hc =>
          simp only [List.cons_append, containsList, Bool.or_eq_true]
          exact Or.inr (ih e hc)

/-- A pattern always starts the list it heads. -/
theorem startsWithList_self (p : List Char) :
    ∀ e, startsWithList p (p ++ e) = true := by
  induction p with
  | nil => intro e; simp [startsWithList]
  | cons a as ih => intro e; simp [startsWithList, ih]

/-- A pattern occurring as an explicit middle segment is contained. -/
theorem containsList_mid (pat : List Char) :
    ∀ (pre post : List Char), containsList (pre ++ (pat ++ post)) pat = true := by
  intro pre
  induction pre with
  | nil =>
      intro post
      cases hp : pat with
      | nil => simpa [containsList] using (by cases post <;> simp [containsList, startsWithList])
      | cons a as =>
          rw [← hp]
          cases hq : pat ++ post with
          | nil =>
              rw [hp] at hq; simp at hq
          | cons c cs =>
              simp only [List.nil_append, hq, containsList, Bool.or_eq_true]
              exact Or.inl (by rw [← hq]; exact startsWithList_self pat post)
  | cons b bs ih =>
      intro post
      have h2 : containsList (bs ++ (pat ++ post)) pat = true := ih post
      cases hq : bs ++ (pat ++ post) with
      | nil =>
          simp only [List.cons_append, hq, containsList, Bool.or_eq_true]
          rw [hq] at h2
          simp only [containsList] at h2
          exact Or.inl (by simp [List.isEmpty_iff.mp h2, startsWithList])
      | cons c cs =>
          simp only [List.cons_append, hq, containsList, Bool.or_eq_true]
          exact Or.inr h2

/-- C8 (confirmed).  In the base64 branch of `get_response_body`, a decoded
body strictly larger than the 100 KB cap is replaced by the placeholder
`[truncated: N bytes]` — which contains the text "truncated" and the
literal decimal byte count and none of the decoded bytes — while a body at
or under the cap is decoded as UTF-8 with replacement characters by the
total (never-raising) decoder. -/
theorem C8_body_decode_policy (decoded : List Nat) :
    (MAX_BODY_SIZE < decoded.length →
      get_response_body_b64 (some decoded)
        = "[truncated: " ++ toString decoded.length ++ " bytes]" ∧
      strContains (get_response_body_b64 (some decoded)) "truncated" = true ∧
      strContains (get_response_body_b64 (some decoded)) (toString decoded.length)
        = true) ∧
    (decoded.length ≤ MAX_BODY_SIZE →
      get_response_body_b64 (some decoded) = utf8DecodeReplace decoded) := by
  constructor
  · intro h
    have heq : get_response_body_b64 (some decoded)
        = "[truncated: " ++ toString decoded.length ++ " bytes]" := by
      simp [get_response_body_b64, h]
    refine ⟨heq, ?_, ?_⟩
    · rw [heq]
      unfold strContains
      rw [strData_append, strData_append, List.append_assoc]
      exact containsList_append_right _ _ _ (by decide)
    · rw [heq]
      unfold strContains
      rw [strData_append, strData_append, List.append_assoc]
      exact containsList_mid _ _ _
  · intro h
    have h' : ¬ MAX_BODY_SIZE < decoded.length := by omega
    simp [get_response_body_b64, h']

/-- C8 (witness): a 200,000-byte decoded body (all `A`s) is replaced by the
placeholder naming its byte count; nothing of the body itself survives. -/
theorem C8_witness :
    MAX_BODY_SIZE < (List.replicate 200000 65).length ∧
    get_response_body_b64 (some (List.replicate 200000 65))
      = "[truncated: " ++ toString (List.replicate 200000 65).length ++ " bytes]" ∧
    strContains (get_response_body_b64 (some (List.replicate 200000 65)))
      "truncated" = true := by
  have h : MAX_BODY_SIZE < (List.replicate 200000 65).length := by
    rw [List.length_replicate]; decide
  exact ⟨h, ((C8_body_decode_policy (List.replicate 200000 65)).1 h).1,
    ((C8_body_decode_policy (List.replicate 200000 65)).1 h).2.1⟩

end ChromeLog
